import Mathlib

/-!
Shallow embedding of the Resource & Scheduling Core of the email-mcp
repository, together with proofs checking the natural-language
specification against it.

Embedded source files:
- `src/services/scheduler.service.ts` — `SchedulerService`
  (`schedule`, `list`, `cancel`, `checkAndSend`);
- `src/safety/rate-limiter.ts` — `RateLimiter`
  (`tryConsume`, `remaining`);
- the `SmtpService` stub whose four send operations unconditionally
  throw the security-block error.

Modelling conventions:
- Instants (`Date.now()`, parsed ISO dates) are natural numbers of
  milliseconds since the epoch. `new Date(s)` applied to an invalid
  string is modelled by `Option Nat` being `none`.
- The scheduled / sent directories of the XDG state area are
  association lists from file name to file content; a file whose
  content `JSON.parse` rejects is `FileContent.corrupt`.
- Thrown exceptions are `Except.error`; the external IMAP draft
  capability (`saveDraft`, `deleteEmail`) and the SMTP submission
  capability (`sendEmail`) are passed as function parameters returning
  `Except`.
- JavaScript float arithmetic in the rate limiter,
  `floor(elapsed / windowMs * maxTokens)`, is modelled by exact
  natural-number arithmetic `elapsed * maxTokens / windowMs`; the two
  agree on all realistic magnitudes.
-/

namespace EmailMcp

/-- Job status, the closed set of strings used by the scheduler. -/
inductive Status where
  | pending
  | sending
  | sent
  | failed
deriving DecidableEq, Repr

/-- The status strings as stored in the JSON records. -/
def Status.str : Status → String
  | .pending => "pending"
  | .sending => "sending"
  | .sent => "sent"
  | .failed => "failed"

/-- A `ScheduledEmail` record (src/types, persisted JSON unit). -/
structure ScheduledEmail where
  id : String
  account : String
  toAddrs : List String
  cc : Option (List String) := none
  bcc : Option (List String) := none
  subject : String
  body : String
  html : Bool := false
  sendAt : Nat
  createdAt : Nat
  status : Status
  attempts : Nat
  lastError : Option String := none
  inReplyTo : Option String := none
  references : Option (List String) := none
  draftMessageId : Option String := none
  draftMailbox : Option String := none
  sentAt : Option Nat := none
  sentMessageId : Option String := none
deriving DecidableEq, Repr

/-- Content of one file in a durable directory: either a record that
`JSON.parse` accepts, or a corrupt blob it rejects. -/
inductive FileContent where
  | record (e : ScheduledEmail)
  | corrupt (raw : String)
deriving DecidableEq, Repr

/-- A durable directory: file names with their contents, in listing order.
(`abbrev` so list instances apply.) -/
abbrev Dir := List (String × FileContent)

/-- `fs.readFile` + `JSON.parse` on one file: `none` models ENOENT. -/
def readFileD (dir : Dir) (name : String) : Option FileContent :=
  (List.find? (fun p => p.1 == name) dir).map (·.2)

/-- `fs.writeFile`: replace the named file, or create it at the end. -/
def writeFileD (dir : Dir) (name : String) (c : FileContent) : Dir :=
  if List.any dir (fun p => p.1 == name) then
    List.map (fun p => if p.1 == name then (name, c) else p) dir
  else dir ++ [(name, c)]

/-- `fs.unlink`: remove the named file. -/
def unlinkD (dir : Dir) (name : String) : Dir :=
  List.filter (fun p => !(p.1 == name)) dir

/-- The status field of a directory entry, when it parses. -/
def contentStatus : FileContent → Option Status
  | .record e => some e.status
  | .corrupt _ => none

/-- The attempts field of the record stored under `name`, if any. -/
def attemptsAt (dir : Dir) (name : String) : Option Nat :=
  match readFileD dir name with
  | some (.record e) => some e.attempts
  | _ => none

/-- The status field of the record stored under `name`, if any. -/
def statusAt (dir : Dir) (name : String) : Option Status :=
  match readFileD dir name with
  | some (.record e) => some e.status
  | _ => none

/-- Whether the record stored under `name` has `lastError` populated. -/
def hasLastError (dir : Dir) (name : String) : Bool :=
  match readFileD dir name with
  | some (.record e) => !(e.lastError == none)
  | _ => false

/-! ### SMTP service (the deny-all fork) -/

/-- Result of a (hypothetical) successful send. -/
structure SendResult where
  messageId : String
deriving DecidableEq, Repr

/-- Options accepted by `SmtpService.sendEmail`. -/
structure SendOptions where
  toAddrs : List String
  subject : String
  body : String
  cc : Option (List String) := none
  bcc : Option (List String) := none
  html : Option Bool := none
deriving DecidableEq, Repr

/-- The security-block message thrown by every send operation. -/
def SECURITY_MSG : String :=
  "SECURITY BLOCK: Sending email is permanently disabled in this fork. " ++
  "This MCP server is read+draft only. No email can be sent via MCP. " ++
  "Save a draft and send it manually from your email client."

namespace SmtpService

/-- `SmtpService.sendEmail`: unconditionally throws the security block. -/
def sendEmail (_accountName : String) (_options : SendOptions) :
    Except String SendResult :=
  .error SECURITY_MSG

/-- Options accepted by `SmtpService.replyToEmail`. -/
structure ReplyOptions where
  emailId : String
  mailbox : Option String := none
  body : String
  replyAll : Option Bool := none
  html : Option Bool := none
deriving DecidableEq, Repr

/-- `SmtpService.replyToEmail`: unconditionally throws the security block. -/
def replyToEmail (_accountName : String) (_options : ReplyOptions) :
    Except String SendResult :=
  .error SECURITY_MSG

/-- Options accepted by `SmtpService.forwardEmail`. -/
structure ForwardOptions where
  emailId : String
  mailbox : Option String := none
  toAddrs : List String
  body : Option String := none
  cc : Option (List String) := none
deriving DecidableEq, Repr

/-- `SmtpService.forwardEmail`: unconditionally throws the security block. -/
def forwardEmail (_accountName : String) (_options : ForwardOptions) :
    Except String SendResult :=
  .error SECURITY_MSG

/-- `SmtpService.sendDraft`: unconditionally throws the security block. -/
def sendDraft (_accountName : String) (_draftId : Nat)
    (_mailbox : Option String) : Except String SendResult :=
  .error SECURITY_MSG

end SmtpService

/-! ### Rate limiter (src/safety/rate-limiter.ts) -/

/-- One token bucket: current tokens and the last refill instant. -/
structure Bucket where
  tokens : Nat
  lastRefill : Nat
deriving DecidableEq, Repr

/-- The `RateLimiter` instance state: per-account buckets plus the two
constructor-fixed parameters. -/
structure RateLimiter where
  buckets : List (String × Bucket)
  maxTokens : Nat
  windowMs : Nat
deriving DecidableEq, Repr

/-- `new RateLimiter(maxPerMinute)`: empty bucket map, 60 s window. -/
def RateLimiter.init (maxPerMinute : Nat) : RateLimiter :=
  { buckets := [], maxTokens := maxPerMinute, windowMs := 60000 }

/-- `this.buckets.get(accountName)`. -/
def RateLimiter.getBucket (rl : RateLimiter) (accountName : String) :
    Option Bucket :=
  (List.find? (fun p => p.1 == accountName) rl.buckets).map (·.2)

/-- `this.buckets.set(accountName, b)` (also models in-place mutation of
the bucket object held by the map). -/
def RateLimiter.setBucket (rl : RateLimiter) (accountName : String)
    (b : Bucket) : RateLimiter :=
  let bs :=
    if List.any rl.buckets (fun p => p.1 == accountName) then
      List.map (fun p => if p.1 == accountName then (accountName, b) else p)
        rl.buckets
    else rl.buckets ++ [(accountName, b)]
  { rl with buckets := bs }

/-- `RateLimiter.tryConsume`, with the current instant made explicit.
Returns the boolean result and the post-state. -/
def RateLimiter.tryConsume (rl : RateLimiter) (now : Nat)
    (accountName : String) : Bool × RateLimiter :=
  let bucket0 : Bucket :=
    match rl.getBucket accountName with
    | some b => b
    | none => { tokens := rl.maxTokens, lastRefill := now }
  let elapsed := now - bucket0.lastRefill
  let refill := elapsed * rl.maxTokens / rl.windowMs
  let bucket1 :=
    if 0 < refill then
      { tokens := min rl.maxTokens (bucket0.tokens + refill), lastRefill := now }
    else bucket0
  if 0 < bucket1.tokens then
    (true, rl.setBucket accountName { bucket1 with tokens := bucket1.tokens - 1 })
  else
    (false, rl.setBucket accountName bucket1)

/-- `RateLimiter.remaining`, with the current instant made explicit.
The source performs no write; the state is threaded to make that a
provable statement, and the returned state is built from the same reads
the source makes. -/
def RateLimiter.remainingS (rl : RateLimiter) (now : Nat)
    (accountName : String) : Nat × RateLimiter :=
  match rl.getBucket accountName with
  | none => (rl.maxTokens, rl)
  | some bucket =>
    let elapsed := now - bucket.lastRefill
    let refill := elapsed * rl.maxTokens / rl.windowMs
    (min rl.maxTokens (bucket.tokens + refill), rl)

/-- The token count after the refill step of `tryConsume`:
`min(capacity, tokens + floor(elapsed * capacity / window))` when the
computed refill is positive, else unchanged. -/
def refillTokens (rl : RateLimiter) (now : Nat) (b : Bucket) : Nat :=
  if 0 < (now - b.lastRefill) * rl.maxTokens / rl.windowMs then
    min rl.maxTokens
      (b.tokens + (now - b.lastRefill) * rl.maxTokens / rl.windowMs)
  else b.tokens

/-- The stored refill timestamp after the refill step of `tryConsume`:
moved to `now` only when the computed refill is positive. -/
def refillStamp (rl : RateLimiter) (now : Nat) (b : Bucket) : Nat :=
  if 0 < (now - b.lastRefill) * rl.maxTokens / rl.windowMs then now
  else b.lastRefill

/-- `j` consecutive `tryConsume` calls for one key on a fresh limiter of
capacity `cap`, all at the same instant `now0` (zero elapsed time). -/
def consumeIter (cap now0 : Nat) (k : String) : Nat → RateLimiter
  | 0 => RateLimiter.init cap
  | j + 1 => ((consumeIter cap now0 k j).tryConsume now0 k).2

/-! ### Scheduler service (src/services/scheduler.service.ts) -/

/-- Max age (ms) for "sending" status before resetting to "pending". -/
def STALE_LOCK_MS : Nat := 5 * 60 * 1000

/-- Max retry attempts before marking as "failed". -/
def MAX_ATTEMPTS : Nat := 3

/-- The injected Submission capability (`smtpService.sendEmail`). -/
abbrev Submission := String → SendOptions → Except String SendResult

/-- The injected Mirror deletion capability (`imapService.deleteEmail`,
taking account, message id, mailbox). -/
abbrev DeleteEmail := String → String → String → Except String Unit

/-- `s.endsWith(suffix)` on strings, via a structurally recursive suffix
test on the character lists. -/
def strEndsWith (s suffix : String) : Bool :=
  List.isPrefixOf suffix.data.reverse s.data.reverse

/-- JS truthiness of an optional string (`undefined` and `""` are falsy). -/
def truthyStr : Option String → Bool
  | some s => !(s == "")
  | none => false

/-- The result object accumulated by `checkAndSend`. -/
structure SweepResult where
  sent : Nat
  failed : Nat
  errors : List String
deriving DecidableEq, Repr

/-- Durable state touched by one sweep: the working directory
(`SCHEDULED_DIR`), the history directory (`SCHEDULED_SENT_DIR`), and the
result object built so far. -/
structure SweepState where
  workDir : Dir
  sentDir : Dir
  result : SweepResult
deriving DecidableEq, Repr

/-- The stale-lock block at the top of the loop body of `checkAndSend`:
only the branch guarded by `lastError !== undefined` performs the reset
(the bare `sending` branch of the source is a `continue`, handled by the
caller since the unreset status is still `sending`). -/
def recoverStale (now : Nat) (r : ScheduledEmail) : ScheduledEmail :=
  if r.status = Status.sending ∧ r.lastError ≠ none then
    if (now : Int) - (r.createdAt : Int) > (STALE_LOCK_MS : Int) then
      { r with status := Status.pending }
    else r
  else r

/-- The options object `checkAndSend` passes to `smtpService.sendEmail`. -/
def sendOptsOf (r : ScheduledEmail) : SendOptions :=
  { toAddrs := r.toAddrs, subject := r.subject, body := r.body,
    cc := r.cc, bcc := r.bcc, html := some r.html }

/-- The guard under which one loop iteration of `checkAndSend` reaches
the claim step (`status := sending; attempts += 1`) for the record it
read: pending after stale-lock handling, due, and below the attempt cap. -/
def attemptReached (now : Nat) (r : ScheduledEmail) : Prop :=
  (recoverStale now r).status = Status.pending ∧ r.sendAt ≤ now
    ∧ r.attempts < MAX_ATTEMPTS

/-- The guard under which one loop iteration force-fails the record it
read without a send attempt (`attempts >= MAX_ATTEMPTS`). -/
def forcedFailLimit (now : Nat) (r : ScheduledEmail) : Prop :=
  (recoverStale now r).status = Status.pending ∧ r.sendAt ≤ now
    ∧ MAX_ATTEMPTS ≤ r.attempts

/-- The body of the `for (const file of jsonFiles)` loop of
`checkAndSend`: processes one file name against the current state. -/
def processFile (send : Submission) (del : DeleteEmail) (now : Nat)
    (st : SweepState) (file : String) : SweepState :=
  match readFileD st.workDir file with
  | none =>
    -- fs.readFile threw: outer catch appends a diagnostic; the recovery
    -- re-read fails again, the inner catch skips the write.
    { st with result := { st.result with
        failed := st.result.failed + 1,
        errors := st.result.errors ++ [file ++ ": ENOENT"] } }
  | some (.corrupt _) =>
    -- JSON.parse threw: same shape, the recovery re-parse fails again.
    { st with result := { st.result with
        failed := st.result.failed + 1,
        errors := st.result.errors ++ [file ++ ": Unexpected token in JSON"] } }
  | some (.record r0) =>
    -- Reset stale locks
    let r := recoverStale now r0
    if r.status = Status.sending then st
    else if r.status ≠ Status.pending then st
    else if now < r.sendAt then st
    else if MAX_ATTEMPTS ≤ r.attempts then
      let rF := { r with status := Status.failed,
                         lastError := some "Max retry attempts exceeded" }
      { st with
          workDir := writeFileD st.workDir (rF.id ++ ".json") (.record rF),
          result := { st.result with failed := st.result.failed + 1 } }
    else
      -- Acquire lock, persist, then invoke the Submission capability.
      let r1 := { r with status := Status.sending, attempts := r.attempts + 1 }
      let wd1 := writeFileD st.workDir (r1.id ++ ".json") (.record r1)
      match send r1.account (sendOptsOf r1) with
      | .ok res =>
        let r2 := { r1 with status := Status.sent, sentAt := some now,
                            sentMessageId := some res.messageId }
        let sd1 := writeFileD st.sentDir file (.record r2)
        let wd2 := unlinkD wd1 file
        -- Best-effort draft deletion: outcome discarded either way.
        let _ :=
          if truthyStr r2.draftMessageId && truthyStr r2.draftMailbox then
            match r2.draftMessageId, r2.draftMailbox with
            | some d, some m => some (del r2.account d m)
            | _, _ => none
          else none
        { workDir := wd2, sentDir := sd1,
          result := { st.result with sent := st.result.sent + 1 } }
      | .error e =>
        let errs := st.result.errors ++ [file ++ ": " ++ e]
        match readFileD wd1 file with
        | some (.record r2) =>
          let r3 := { r2 with
              status := if MAX_ATTEMPTS ≤ r2.attempts then Status.failed
                        else Status.pending,
              lastError := some e }
          { st with workDir := writeFileD wd1 file (.record r3),
                    result := { st.result with
                        failed := st.result.failed + 1, errors := errs } }
        | _ =>
          { st with workDir := wd1,
                    result := { st.result with
                        failed := st.result.failed + 1, errors := errs } }

/-- The sequential sweep over a list of file names. -/
def sweepFiles (send : Submission) (del : DeleteEmail) (now : Nat)
    (files : List String) (st : SweepState) : SweepState :=
  List.foldl (processFile send del now) st files

/-- `SchedulerService.checkAndSend`: lists the working directory, keeps
the `.json` names, and processes them sequentially. -/
def checkAndSend (send : Submission) (del : DeleteEmail) (now : Nat)
    (workDir sentDir : Dir) : SweepState :=
  let jsonFiles :=
    List.filter (fun f => strEndsWith f ".json") (List.map Prod.fst workDir)
  sweepFiles send del now jsonFiles
    { workDir := workDir, sentDir := sentDir,
      result := { sent := 0, failed := 0, errors := [] } }

/-- Result of `imapService.saveDraft`. -/
structure DraftResult where
  id : String
  mailbox : String
deriving DecidableEq, Repr

/-- Arguments `schedule` passes to `imapService.saveDraft`. -/
structure SaveDraftArgs where
  toAddrs : List String
  subject : String
  body : String
  cc : Option (List String) := none
  html : Option Bool := none
deriving DecidableEq, Repr

/-- The injected Mirror creation capability (`imapService.saveDraft`). -/
abbrev SaveDraft := SaveDraftArgs → Except String DraftResult

/-- Options accepted by `SchedulerService.schedule`; `sendAt` is the
parsed instant of the `sendAt` string (`none` when `new Date` yields NaN). -/
structure ScheduleOptions where
  toAddrs : List String
  subject : String
  body : String
  sendAt : Option Nat
  cc : Option (List String) := none
  bcc : Option (List String) := none
  html : Option Bool := none
  inReplyTo : Option String := none
  references : Option (List String) := none
deriving DecidableEq, Repr

/-- `SchedulerService.schedule`. `fmtLocale` models
`Date.toLocaleString`, `freshId` the value of `crypto.randomUUID()`,
`now` the current instant. Returns the thrown-or-returned value together
with the working directory afterwards (a throw leaves it untouched, as in
the source nothing is written before validation passes). -/
def schedule (saveDraft : SaveDraft) (fmtLocale : Nat → String)
    (freshId : String) (now : Nat) (account : String)
    (options : ScheduleOptions) (dir : Dir) :
    Except String ScheduledEmail × Dir :=
  match options.sendAt with
  | none => (.error "Invalid send_at date", dir)
  | some sendAtMs =>
    if sendAtMs ≤ now then (.error "send_at must be in the future", dir)
    else
      let scheduled : ScheduledEmail :=
        { id := freshId, account := account, toAddrs := options.toAddrs,
          cc := options.cc, bcc := options.bcc, subject := options.subject,
          body := options.body, html := options.html.getD false,
          sendAt := sendAtMs, createdAt := now, status := Status.pending,
          attempts := 0, inReplyTo := options.inReplyTo,
          references := options.references }
      -- Save IMAP draft (best-effort).
      let scheduled2 :=
        match saveDraft
            { toAddrs := options.toAddrs,
              subject := "[Scheduled: " ++ fmtLocale sendAtMs ++ "] "
                ++ options.subject,
              body := options.body, cc := options.cc,
              html := options.html } with
        | .ok draftResult =>
          { scheduled with draftMessageId := some draftResult.id,
                           draftMailbox := some draftResult.mailbox }
        | .error _ => scheduled
      (.ok scheduled2,
       writeFileD dir (scheduled2.id ++ ".json") (.record scheduled2))

/-- Errors thrown by `SchedulerService.cancel`. -/
inductive CancelError where
  | notFound (scheduleId : String)
  | invalidState (status : Status)
  | parseFailure
deriving DecidableEq, Repr

/-- Return value of `SchedulerService.cancel`. -/
structure CancelResult where
  cancelled : Bool
  draftDeleted : Bool
deriving DecidableEq, Repr

/-- `SchedulerService.cancel`, returning the thrown-or-returned value
together with the working directory afterwards. -/
def cancel (del : DeleteEmail) (dir : Dir) (scheduleId : String) :
    Except CancelError CancelResult × Dir :=
  match readFileD dir (scheduleId ++ ".json") with
  | none => (.error (.notFound scheduleId), dir)
  | some (.corrupt _) => (.error .parseFailure, dir)
  | some (.record scheduled) =>
    if scheduled.status ≠ Status.pending then
      (.error (.invalidState scheduled.status), dir)
    else
      -- Delete IMAP draft (best-effort).
      let draftDeleted :=
        if truthyStr scheduled.draftMessageId
            && truthyStr scheduled.draftMailbox then
          match scheduled.draftMessageId, scheduled.draftMailbox with
          | some d, some m =>
            match del scheduled.account d m with
            | .ok _ => true
            | .error _ => false
          | _, _ => false
        else false
      (.ok { cancelled := true, draftDeleted := draftDeleted },
       unlinkD dir (scheduleId ++ ".json"))

/-- The status filter accepted by `SchedulerService.list`. -/
inductive StatusFilter where
  | pending
  | sent
  | failed
  | all
deriving DecidableEq, Repr

/-- The filter strings as they appear in the tool layer. -/
def StatusFilter.str : StatusFilter → String
  | .pending => "pending"
  | .sent => "sent"
  | .failed => "failed"
  | .all => "all"

/-- Options accepted by `SchedulerService.list`. -/
structure ListOptions where
  account : Option String := none
  status : Option StatusFilter := none
deriving DecidableEq, Repr

/-- `SchedulerService.readDir`: the parseable `.json` records of a
directory, in listing order (corrupted files skipped). -/
def readDirD (dir : Dir) : List ScheduledEmail :=
  List.filterMap
    (fun p =>
      if strEndsWith p.1 ".json" then
        match p.2 with
        | .record e => some e
        | .corrupt _ => none
      else none) dir

/-- `SchedulerService.list`. -/
def list (workDir sentDir : Dir) (options : ListOptions) :
    List ScheduledEmail :=
  let status := options.status.getD StatusFilter.pending
  let emails :=
    (if status ≠ StatusFilter.sent then readDirD workDir else []) ++
    (if status = StatusFilter.sent ∨ status = StatusFilter.all then
      readDirD sentDir else [])
  let filtered :=
    match options.account with
    | some a => List.filter (fun e => e.account == a) emails
    | none => emails
  if status ≠ StatusFilter.all then
    List.filter (fun e => e.status.str == status.str) filtered
  else
    List.mergeSort filtered (fun a b => decide (a.sendAt ≤ b.sendAt))

/-! ### Concrete fixtures used by counterexamples and witnesses -/

/-- A Submission capability that always succeeds. -/
def okSend : Submission := fun _ _ => .ok { messageId := "mid-1" }

/-- A Submission capability that always throws. -/
def failSend : Submission := fun _ _ => .error "smtp down"

/-- A Mirror deletion capability that always succeeds. -/
def okDel : DeleteEmail := fun _ _ _ => .ok ()

/-- A Mirror deletion capability that always throws. -/
def failDel : DeleteEmail := fun _ _ _ => .error "imap down"

/-- A `sending` record with `lastError` unset, created at instant 0 and
long overdue. -/
def stuckRec : ScheduledEmail :=
  { id := "j1", account := "acct", toAddrs := ["r@example.org"],
    subject := "subj", body := "text", sendAt := 0, createdAt := 0,
    status := Status.sending, attempts := 1 }

/-- A working directory holding only `stuckRec`. -/
def stuckDir : Dir := [("j1.json", .record stuckRec)]

/-- A pending record with the later `sendAt`, listed first. -/
def rLate : ScheduledEmail :=
  { id := "a", account := "acct", toAddrs := ["r@example.org"],
    subject := "subj", body := "text", sendAt := 2000, createdAt := 0,
    status := Status.pending, attempts := 0 }

/-- A pending record with the earlier `sendAt`, listed second. -/
def rEarly : ScheduledEmail :=
  { id := "b", account := "acct", toAddrs := ["r@example.org"],
    subject := "subj", body := "text", sendAt := 1000, createdAt := 0,
    status := Status.pending, attempts := 0 }

/-- A working directory listing the later record before the earlier. -/
def unsortedDir : Dir := [("a.json", .record rLate), ("b.json", .record rEarly)]

/-- An overdue pending record on its second attempt. -/
def dueRec : ScheduledEmail :=
  { id := "j2", account := "acct", toAddrs := ["r@example.org"],
    subject := "subj", body := "text", sendAt := 500, createdAt := 100,
    status := Status.pending, attempts := 1 }

/-- A working directory holding only `dueRec` under its id. -/
def dueDir : Dir := [("j2.json", .record dueRec)]

/-- A sweep state holding only `dueRec`. -/
def dueState : SweepState :=
  { workDir := dueDir, sentDir := [],
    result := { sent := 0, failed := 0, errors := [] } }

/-- A working state whose only file is corrupt. -/
def corruptState : SweepState :=
  { workDir := [("bad.json", .corrupt "not json")], sentDir := [],
    result := { sent := 0, failed := 0, errors := [] } }

/-- Schedule options with a valid, future `sendAt` (relative to 100). -/
def futureOpts : ScheduleOptions :=
  { toAddrs := ["r@example.org"], subject := "subj", body := "text",
    sendAt := some 5000 }

/-- A pending record carrying a mirror draft reference. -/
def pendingRec : ScheduledEmail :=
  { id := "j3", account := "acct", toAddrs := ["r@example.org"],
    subject := "subj", body := "text", sendAt := 5000, createdAt := 100,
    status := Status.pending, attempts := 0,
    draftMessageId := some "42", draftMailbox := some "Drafts" }

/-- A failed record under its id. -/
def failedRec : ScheduledEmail :=
  { pendingRec with id := "j4", status := Status.failed }

/-- A working directory with one pending and one failed record. -/
def cancelDir : Dir :=
  [("j3.json", .record pendingRec), ("j4.json", .record failedRec)]

/-! ### Association-list lemmas for the directory and bucket maps -/

theorem bool_eq_false {b : Bool} (h : ¬ b = true) : b = false := by
  cases b
  · rfl
  · exact absurd rfl h

theorem find?_map_update {β : Type} (l : List (String × β)) (n : String)
    (b : β) (h : List.any l (fun p => p.1 == n) = true) :
    List.find? (fun p => p.1 == n)
      (List.map (fun p => if p.1 == n then (n, b) else p) l) = some (n, b) := by
  induction l with
  | nil => simp at h
  | cons hd tl ih =>
    rw [List.map_cons, List.find?_cons]
    by_cases hhd : (hd.1 == n) = true
    · rw [if_pos hhd]
      simp
    · have hhd' : (hd.1 == n) = false := bool_eq_false hhd
      simp only [List.any_cons, hhd', Bool.false_or] at h
      rw [if_neg hhd, hhd']
      exact ih h

theorem find?_append_new {β : Type} (l : List (String × β)) (n : String)
    (b : β) (h : List.any l (fun p => p.1 == n) = false) :
    List.find? (fun p => p.1 == n) (l ++ [(n, b)]) = some (n, b) := by
  induction l with
  | nil => simp
  | cons hd tl ih =>
    simp only [List.any_cons, Bool.or_eq_false_iff] at h
    rw [List.cons_append, List.find?_cons, h.1]
    exact ih h.2

theorem readFileD_writeFileD_self (d : Dir) (n : String) (c : FileContent) :
    readFileD (writeFileD d n c) n = some c := by
  unfold readFileD writeFileD
  by_cases h : List.any d (fun p => p.1 == n) = true
  · rw [if_pos h, find?_map_update d n c h]
    rfl
  · rw [if_neg h, find?_append_new d n c (bool_eq_false h)]
    rfl

theorem readFileD_unlinkD_self (d : Dir) (n : String) :
    readFileD (unlinkD d n) n = none := by
  unfold readFileD unlinkD
  induction d with
  | nil => rfl
  | cons hd tl ih =>
    by_cases h : (hd.1 == n) = true
    · rw [List.filter_cons_of_neg (by simp [h])]
      exact ih
    · have h' : (hd.1 == n) = false := bool_eq_false h
      rw [List.filter_cons_of_pos (by simp [h']), List.find?_cons, h']
      exact ih

theorem mem_writeFileD (d : Dir) (n : String) (c : FileContent)
    (p : String × FileContent) (hp : p ∈ writeFileD d n c) :
    p ∈ d ∨ p = (n, c) := by
  unfold writeFileD at hp
  by_cases h : List.any d (fun p => p.1 == n) = true
  · rw [if_pos h] at hp
    rcases List.mem_map.mp hp with ⟨q, hq, he⟩
    by_cases hqn : (q.1 == n) = true
    · right
      rw [← he, if_pos hqn]
    · left
      rw [← he, if_neg hqn]
      exact hq
  · rw [if_neg h] at hp
    rcases List.mem_append.mp hp with h' | h'
    · exact Or.inl h'
    · right
      simpa using h'

theorem mem_unlinkD (d : Dir) (n : String) (p : String × FileContent)
    (hp : p ∈ unlinkD d n) : p ∈ d :=
  List.mem_of_mem_filter hp

theorem getBucket_setBucket (rl : RateLimiter) (k : String) (b : Bucket) :
    (rl.setBucket k b).getBucket k = some b := by
  unfold RateLimiter.getBucket RateLimiter.setBucket
  simp only
  by_cases h : List.any rl.buckets (fun p => p.1 == k) = true
  · rw [if_pos h, find?_map_update rl.buckets k b h]
    rfl
  · rw [if_neg h, find?_append_new rl.buckets k b (bool_eq_false h)]
    rfl

theorem processFile_deny_step (del : DeleteEmail) (now : Nat)
    (st : SweepState) (file : String) :
    (processFile SmtpService.sendEmail del now st file).result.sent
        = st.result.sent
    ∧ (processFile SmtpService.sendEmail del now st file).sentDir = st.sentDir
    ∧ ∀ p ∈ (processFile SmtpService.sendEmail del now st file).workDir,
        p ∈ st.workDir ∨ contentStatus p.2 ≠ some Status.sent := by
  unfold processFile
  cases h : readFileD st.workDir file with
  | none => exact ⟨rfl, rfl, fun p hp => Or.inl hp⟩
  | some c =>
    cases c with
    | corrupt raw => exact ⟨rfl, rfl, fun p hp => Or.inl hp⟩
    | record r0 =>
      dsimp only [SmtpService.sendEmail]
      repeat' split
      all_goals refine ⟨rfl, rfl, fun p hp => ?_⟩
      all_goals
        repeat'
          first
          | exact Or.inl hp
          | (rw [hp]
             right
             simp [contentStatus])
          | rcases mem_writeFileD _ _ _ p hp with hp | hp

theorem sweepFiles_deny_inv (del : DeleteEmail) (now : Nat)
    (files : List String) :
    ∀ st : SweepState,
      (sweepFiles SmtpService.sendEmail del now files st).result.sent
          = st.result.sent
      ∧ (sweepFiles SmtpService.sendEmail del now files st).sentDir
          = st.sentDir
      ∧ ∀ p ∈ (sweepFiles SmtpService.sendEmail del now files st).workDir,
          p ∈ st.workDir ∨ contentStatus p.2 ≠ some Status.sent := by
  induction files with
  | nil => exact fun st => ⟨rfl, rfl, fun p hp => Or.inl hp⟩
  | cons f rest ih =>
    intro st
    have hstep := processFile_deny_step del now st f
    have hrest := ih (processFile SmtpService.sendEmail del now st f)
    refine ⟨?_, ?_, ?_⟩
    · rw [show sweepFiles SmtpService.sendEmail del now (f :: rest) st
          = sweepFiles SmtpService.sendEmail del now rest
              (processFile SmtpService.sendEmail del now st f) from rfl,
        hrest.1, hstep.1]
    · rw [show sweepFiles SmtpService.sendEmail del now (f :: rest) st
          = sweepFiles SmtpService.sendEmail del now rest
              (processFile SmtpService.sendEmail del now st f) from rfl,
        hrest.2.1, hstep.2.1]
    · intro p hp
      rcases hrest.2.2 p hp with h | h
      · exact hstep.2.2 p h
      · exact Or.inr h

theorem tryConsume_fresh (rl : RateLimiter) (now : Nat) (k : String)
    (hb : rl.getBucket k = none) :
    rl.tryConsume now k
      = (decide (0 < rl.maxTokens),
         rl.setBucket k { tokens := rl.maxTokens - 1, lastRefill := now }) := by
  unfold RateLimiter.tryConsume
  rw [hb]
  dsimp only
  rw [Nat.sub_self, Nat.zero_mul, Nat.zero_div, if_neg (Nat.lt_irrefl 0)]
  dsimp only
  by_cases ht : 0 < rl.maxTokens
  · rw [if_pos ht]
    simp [ht]
  · rw [if_neg ht]
    have h0 : rl.maxTokens = 0 := by omega
    rw [h0]
    simp

theorem tryConsume_same_instant (rl : RateLimiter) (now : Nat) (k : String)
    (t : Nat) (hb : rl.getBucket k = some { tokens := t, lastRefill := now }) :
    rl.tryConsume now k
      = (decide (0 < t), rl.setBucket k { tokens := t - 1, lastRefill := now }) := by
  unfold RateLimiter.tryConsume
  rw [hb]
  dsimp only
  rw [Nat.sub_self, Nat.zero_mul, Nat.zero_div, if_neg (Nat.lt_irrefl 0)]
  dsimp only
  by_cases ht : 0 < t
  · rw [if_pos ht]
    simp [ht]
  · rw [if_neg ht]
    have h0 : t = 0 := by omega
    rw [h0]
    simp

theorem consumeIter_state (cap now0 : Nat) (k : String) :
    ∀ j, (consumeIter cap now0 k j).maxTokens = cap
      ∧ (consumeIter cap now0 k j).windowMs = 60000
      ∧ (j ≠ 0 → (consumeIter cap now0 k j).getBucket k
          = some { tokens := cap - j, lastRefill := now0 }) := by
  intro j
  induction j with
  | zero => exact ⟨rfl, rfl, fun h => absurd rfl h⟩
  | succ j ih =>
    obtain ⟨hmax, hwin, hbk⟩ := ih
    by_cases hj : j = 0
    · subst hj
      have h := tryConsume_fresh (consumeIter cap now0 k 0) now0 k rfl
      refine ⟨?_, ?_, fun _ => ?_⟩
      · show ((consumeIter cap now0 k 0).tryConsume now0 k).2.maxTokens = cap
        rw [h]
        exact hmax
      · show ((consumeIter cap now0 k 0).tryConsume now0 k).2.windowMs = 60000
        rw [h]
        exact hwin
      · show ((consumeIter cap now0 k 0).tryConsume now0 k).2.getBucket k
            = some { tokens := cap - 1, lastRefill := now0 }
        rw [h]
        dsimp only
        rw [getBucket_setBucket, hmax]
    · have hb := hbk hj
      have h := tryConsume_same_instant (consumeIter cap now0 k j) now0 k
        (cap - j) hb
      refine ⟨?_, ?_, fun _ => ?_⟩
      · show ((consumeIter cap now0 k j).tryConsume now0 k).2.maxTokens = cap
        rw [h]
        exact hmax
      · show ((consumeIter cap now0 k j).tryConsume now0 k).2.windowMs = 60000
        rw [h]
        exact hwin
      · show ((consumeIter cap now0 k j).tryConsume now0 k).2.getBucket k
            = some { tokens := cap - (j + 1), lastRefill := now0 }
        rw [h]
        dsimp only
        rw [getBucket_setBucket, Nat.sub_sub]

/-! ### Claim theorems -/

/-- C1: every send operation of the forked `SmtpService` throws the
security-block error for every account and options value; consequently a
sweep of `checkAndSend` driven by this Submission capability reports
`sent = 0`, moves nothing into the history directory, and writes no
record with status `sent`. -/
theorem smtp_block_no_send (del : DeleteEmail) (now : Nat)
    (workDir sentDir : Dir) (acct : String) (opts : SendOptions)
    (ropts : SmtpService.ReplyOptions) (fopts : SmtpService.ForwardOptions)
    (draftId : Nat) (mailbox : Option String) :
    SmtpService.sendEmail acct opts = .error SECURITY_MSG
    ∧ SmtpService.replyToEmail acct ropts = .error SECURITY_MSG
    ∧ SmtpService.forwardEmail acct fopts = .error SECURITY_MSG
    ∧ SmtpService.sendDraft acct draftId mailbox = .error SECURITY_MSG
    ∧ (checkAndSend SmtpService.sendEmail del now workDir sentDir).result.sent
        = 0
    ∧ (checkAndSend SmtpService.sendEmail del now workDir sentDir).sentDir
        = sentDir
    ∧ ∀ p ∈ (checkAndSend SmtpService.sendEmail del now workDir
          sentDir).workDir,
        p ∈ workDir ∨ contentStatus p.2 ≠ some Status.sent := by
  have hinv := sweepFiles_deny_inv del now
    (List.filter (fun f => strEndsWith f ".json") (List.map Prod.fst workDir))
    { workDir := workDir, sentDir := sentDir,
      result := { sent := 0, failed := 0, errors := [] } }
  exact ⟨rfl, rfl, rfl, rfl, hinv.1, hinv.2.1, hinv.2.2⟩

/-- C10: `RateLimiter.remaining` never mutates stored bucket state: for
every limiter state, instant and key, the threaded state comes back
exactly as it was, and a never-seen key reports full capacity without a
bucket being created. -/
theorem remaining_read_only (rl : RateLimiter) (now : Nat) (k : String) :
    (rl.remainingS now k).2 = rl
    ∧ (rl.getBucket k = none → (rl.remainingS now k).1 = rl.maxTokens) := by
  unfold RateLimiter.remainingS
  refine ⟨?_, ?_⟩
  · cases h : rl.getBucket k <;> simp [h]
  · intro h
    simp [h]

/-- Witness for `remaining_read_only` at a fresh limiter and unseen key. -/
theorem remaining_read_only_witness :
    (RateLimiter.init 10).getBucket "acct" = none
    ∧ ((RateLimiter.init 10).remainingS 5 "acct").2 = RateLimiter.init 10
    ∧ ((RateLimiter.init 10).remainingS 5 "acct").1 = 10 :=
  ⟨rfl, (remaining_read_only (RateLimiter.init 10) 5 "acct").1,
    (remaining_read_only (RateLimiter.init 10) 5 "acct").2 rfl⟩

/-- C5: `schedule` throws exactly when `sendAt` does not parse or is not
strictly after the current instant; it persists nothing on rejection; on
success it returns and persists a fresh `pending` record with
`attempts = 0` and the generated id. -/
theorem schedule_validation (saveDraft : SaveDraft) (fmtLocale : Nat → String)
    (freshId : String) (now : Nat) (account : String)
    (options : ScheduleOptions) (dir : Dir) :
    ((∃ e, (schedule saveDraft fmtLocale freshId now account options dir).1
        = .error e)
      ↔ options.sendAt = none ∨ ∃ t, options.sendAt = some t ∧ t ≤ now)
    ∧ (∀ e, (schedule saveDraft fmtLocale freshId now account options dir).1
          = .error e →
        (schedule saveDraft fmtLocale freshId now account options dir).2 = dir)
    ∧ (∀ j, (schedule saveDraft fmtLocale freshId now account options dir).1
          = .ok j →
        j.status = Status.pending ∧ j.attempts = 0 ∧ j.id = freshId
          ∧ (schedule saveDraft fmtLocale freshId now account options dir).2
              = writeFileD dir (freshId ++ ".json") (.record j)) := by
  unfold schedule
  cases hsa : options.sendAt with
  | none =>
    dsimp only
    refine ⟨?_, ?_, ?_⟩
    · simp
    · intro e _
      rfl
    · intro j hj
      cases hj
  | some t =>
    dsimp only
    by_cases hle : t ≤ now
    · rw [if_pos hle]
      refine ⟨?_, ?_, ?_⟩
      · simp [hle]
      · intro e _
        rfl
      · intro j hj
        cases hj
    · rw [if_neg hle]
      refine ⟨?_, ?_, ?_⟩
      · simp only [iff_false_intro hle]
        constructor
        · rintro ⟨e, he⟩
          cases he
        · rintro (h | ⟨t', ht', h⟩)
          · cases h
          · cases ht'
            exact absurd h hle
      · intro e he
        cases he
      · intro j hj
        cases hsd : saveDraft
            { toAddrs := options.toAddrs,
              subject := "[Scheduled: " ++ fmtLocale t ++ "] "
                ++ options.subject,
              body := options.body, cc := options.cc,
              html := options.html } with
        | ok dr =>
          rw [hsd] at hj
          cases hj
          exact ⟨rfl, rfl, rfl, rfl⟩
        | error de =>
          rw [hsd] at hj
          cases hj
          exact ⟨rfl, rfl, rfl, rfl⟩

/-- Witness for `schedule_validation`: rejection of a past instant, and
acceptance of a future one. -/
theorem schedule_validation_witness :
    (∃ e, (schedule (fun _ => .error "imap down") (fun _ => "DATE") "id-1"
        6000 "acct" futureOpts []).1 = .error e)
    ∧ ∀ j, (schedule (fun _ => .error "imap down") (fun _ => "DATE") "id-1"
        100 "acct" futureOpts []).1 = .ok j →
        j.status = Status.pending ∧ j.attempts = 0 ∧ j.id = "id-1"
          ∧ (schedule (fun _ => .error "imap down") (fun _ => "DATE") "id-1"
              100 "acct" futureOpts []).2
              = writeFileD [] ("id-1" ++ ".json") (.record j) :=
  ⟨(schedule_validation (fun _ => .error "imap down") (fun _ => "DATE") "id-1"
      6000 "acct" futureOpts []).1.mpr (Or.inr ⟨5000, rfl, by decide⟩),
   (schedule_validation (fun _ => .error "imap down") (fun _ => "DATE") "id-1"
      100 "acct" futureOpts []).2.2⟩

/-- C6: `cancel` on a pending job deletes the record and returns
`cancelled = true`; on a job in any other status it throws the
invalid-state error and leaves the stored state unmutated; on a missing
id it throws the not-found error. -/
theorem cancel_behaviour (del : DeleteEmail) (dir : Dir) (scheduleId : String) :
    (∀ r, readFileD dir (scheduleId ++ ".json") = some (.record r) →
        r.status = Status.pending →
        (∃ b, (cancel del dir scheduleId).1
            = .ok { cancelled := true, draftDeleted := b })
        ∧ (cancel del dir scheduleId).2 = unlinkD dir (scheduleId ++ ".json")
        ∧ readFileD (cancel del dir scheduleId).2 (scheduleId ++ ".json")
            = none)
    ∧ (∀ r, readFileD dir (scheduleId ++ ".json") = some (.record r) →
        r.status ≠ Status.pending →
        (cancel del dir scheduleId).1 = .error (.invalidState r.status)
        ∧ (cancel del dir scheduleId).2 = dir)
    ∧ (readFileD dir (scheduleId ++ ".json") = none →
        (cancel del dir scheduleId).1 = .error (.notFound scheduleId)
        ∧ (cancel del dir scheduleId).2 = dir) := by
  refine ⟨?_, ?_, ?_⟩
  · intro r hr hp
    unfold cancel
    rw [hr]
    dsimp only
    rw [if_neg (by simp [hp])]
    exact ⟨⟨_, rfl⟩, rfl, readFileD_unlinkD_self dir (scheduleId ++ ".json")⟩
  · intro r hr hnp
    unfold cancel
    rw [hr]
    dsimp only
    rw [if_pos hnp]
    exact ⟨rfl, rfl⟩
  · intro hr
    unfold cancel
    rw [hr]
    exact ⟨rfl, rfl⟩

/-- Witness for `cancel_behaviour`: a pending, a failed and a missing id
against a concrete working directory. -/
theorem cancel_behaviour_witness :
    (∃ b, (cancel okDel cancelDir "j3").1
        = .ok { cancelled := true, draftDeleted := b })
    ∧ (cancel okDel cancelDir "j4").1 = .error (.invalidState Status.failed)
    ∧ (cancel okDel cancelDir "j4").2 = cancelDir
    ∧ (cancel okDel cancelDir "j9").1 = .error (.notFound "j9") :=
  ⟨((cancel_behaviour okDel cancelDir "j3").1 pendingRec rfl rfl).1,
   ((cancel_behaviour okDel cancelDir "j4").2.1 failedRec rfl (by decide)).1,
   ((cancel_behaviour okDel cancelDir "j4").2.1 failedRec rfl (by decide)).2,
   ((cancel_behaviour okDel cancelDir "j9").2.2 rfl).1⟩

/-- C9: a Mirror capability whose draft creation throws never fails
`schedule`: the call succeeds, persists, and returns the same job a
succeeding capability would yield, except with the mirror reference
fields (`draftMessageId`/`draftMailbox`) omitted. -/
theorem schedule_mirror_swallowed (e : String) (d : DraftResult)
    (fmtLocale : Nat → String) (freshId : String) (now : Nat)
    (account : String) (options : ScheduleOptions) (dir : Dir) (t : Nat)
    (ht : options.sendAt = some t) (hfut : now < t) :
    ∃ jf jo,
      (schedule (fun _ => .error e) fmtLocale freshId now account options
          dir).1 = .ok jf
      ∧ (schedule (fun _ => .ok d) fmtLocale freshId now account options
          dir).1 = .ok jo
      ∧ jf = { jo with draftMessageId := none, draftMailbox := none }
      ∧ jf.draftMessageId = none ∧ jf.draftMailbox = none
      ∧ (schedule (fun _ => .error e) fmtLocale freshId now account options
          dir).2 = writeFileD dir (freshId ++ ".json") (.record jf) := by
  unfold schedule
  rw [ht]
  dsimp only
  have hn : ¬ t ≤ now := by omega
  rw [if_neg hn, if_neg hn]
  exact ⟨_, _, rfl, rfl, rfl, rfl, rfl, rfl⟩

/-- Witness for `schedule_mirror_swallowed` at concrete options. -/
theorem schedule_mirror_swallowed_witness :
    futureOpts.sendAt = some 5000 ∧ (100 : Nat) < 5000
    ∧ ∃ jf jo,
      (schedule (fun _ => .error "imap down") (fun _ => "DATE") "id-1" 100
          "acct" futureOpts []).1 = .ok jf
      ∧ (schedule (fun _ => .ok { id := "42", mailbox := "Drafts" })
          (fun _ => "DATE") "id-1" 100 "acct" futureOpts []).1 = .ok jo
      ∧ jf = { jo with draftMessageId := none, draftMailbox := none }
      ∧ jf.draftMessageId = none ∧ jf.draftMailbox = none
      ∧ (schedule (fun _ => .error "imap down") (fun _ => "DATE") "id-1" 100
          "acct" futureOpts []).2
          = writeFileD [] ("id-1" ++ ".json") (.record jf) :=
  ⟨rfl, by decide,
   schedule_mirror_swallowed "imap down" { id := "42", mailbox := "Drafts" }
     (fun _ => "DATE") "id-1" 100 "acct" futureOpts [] 5000 rfl (by decide)⟩

/-- C2 (code observation): a `sending` record whose `lastError` is unset
is never recovered, no matter how far its age exceeds the stale-lock
threshold: the sweep leaves the record untouched (still `sending`) and
reports no activity, where the claim requires it to be reset to
`pending` and re-evaluated. -/
theorem stale_sending_without_lastError_stuck :
    stuckRec.status = Status.sending
    ∧ stuckRec.lastError = none
    ∧ STALE_LOCK_MS < 10 * STALE_LOCK_MS - stuckRec.createdAt
    ∧ checkAndSend okSend okDel (10 * STALE_LOCK_MS) stuckDir []
        = { workDir := stuckDir, sentDir := [],
            result := { sent := 0, failed := 0, errors := [] } } :=
  ⟨rfl, rfl, by decide, rfl⟩

/-- C3 (counterexample): with the default status filter (`pending`),
`list` keeps directory order: a directory listing the later `sendAt`
first is returned unsorted. -/
theorem list_default_filter_not_sorted :
    list unsortedDir [] {} = [rLate, rEarly]
    ∧ rEarly.sendAt < rLate.sendAt
    ∧ ¬ List.Sorted (fun a b : ScheduledEmail => a.sendAt ≤ b.sendAt)
        (list unsortedDir [] {}) := by
  refine ⟨rfl, by decide, ?_⟩
  intro hs
  rw [show list unsortedDir [] {} = [rLate, rEarly] from rfl] at hs
  have h := (List.sorted_cons.mp hs).1 rEarly (by simp)
  exact absurd h (by decide)

/-- C3 (amended): `list` returns results sorted ascending by `sendAt`
when the status filter is `all`; for the other filters the records are
returned in directory order, unsorted. -/
theorem list_sorted_when_all (workDir sentDir : Dir) (acct : Option String) :
    List.Sorted (fun a b : ScheduledEmail => a.sendAt ≤ b.sendAt)
      (list workDir sentDir { account := acct, status := some .all }) := by
  unfold list
  simp only [Option.getD_some]
  rw [if_neg (by simp : ¬ (StatusFilter.all ≠ StatusFilter.all))]
  refine List.Pairwise.imp (fun h => of_decide_eq_true h)
    (@List.sorted_mergeSort ScheduledEmail
      (fun a b => decide (a.sendAt ≤ b.sendAt)) ?_ ?_ _)
  · intro a b c h1 h2
    simp only [decide_eq_true_eq] at h1 h2 ⊢
    omega
  · intro a b
    simp only [Bool.or_eq_true, decide_eq_true_eq]
    omega

/-- C8: `checkAndSend` isolates per-record failures: the sweep always
continues with the remaining files whatever one iteration did; a corrupt
record only appends a diagnostic to `errors` and bumps `failed`, leaving
both directories untouched; and every iteration only ever extends the
`errors` list. -/
theorem sweep_fault_isolation (send : Submission) (del : DeleteEmail)
    (now : Nat) (st : SweepState) (file : String) (rest : List String)
    (raw : String) :
    (sweepFiles send del now (file :: rest) st
        = sweepFiles send del now rest (processFile send del now st file))
    ∧ (readFileD st.workDir file = some (.corrupt raw) →
        processFile send del now st file
          = { st with result := { st.result with
                failed := st.result.failed + 1,
                errors := st.result.errors
                  ++ [file ++ ": Unexpected token in JSON"] } })
    ∧ (∃ tail, (processFile send del now st file).result.errors
          = st.result.errors ++ tail) := by
  refine ⟨rfl, ?_, ?_⟩
  · intro h
    unfold processFile
    rw [h]
  · unfold processFile
    cases h : readFileD st.workDir file with
    | none => exact ⟨_, rfl⟩
    | some c =>
      cases c with
      | corrupt raw' => exact ⟨_, rfl⟩
      | record r0 =>
        dsimp only
        repeat' first
          | exact ⟨[], (List.append_nil _).symm⟩
          | exact ⟨_, rfl⟩
          | split

/-- Witness for `sweep_fault_isolation` on a concrete corrupt file. -/
theorem sweep_fault_isolation_witness :
    readFileD corruptState.workDir "bad.json" = some (.corrupt "not json")
    ∧ processFile okSend okDel 0 corruptState "bad.json"
        = { corruptState with result := { corruptState.result with
              failed := corruptState.result.failed + 1,
              errors := corruptState.result.errors
                ++ ["bad.json" ++ ": Unexpected token in JSON"] } } :=
  ⟨rfl, (sweep_fault_isolation okSend okDel 0 corruptState "bad.json" []
      "not json").2.1 rfl⟩

theorem recoverStale_id (now : Nat) (r : ScheduledEmail) :
    (recoverStale now r).id = r.id := by
  unfold recoverStale
  repeat' split
  all_goals rfl

theorem recoverStale_sendAt (now : Nat) (r : ScheduledEmail) :
    (recoverStale now r).sendAt = r.sendAt := by
  unfold recoverStale
  repeat' split
  all_goals rfl

theorem recoverStale_attempts (now : Nat) (r : ScheduledEmail) :
    (recoverStale now r).attempts = r.attempts := by
  unfold recoverStale
  repeat' split
  all_goals rfl

theorem recoverStale_account (now : Nat) (r : ScheduledEmail) :
    (recoverStale now r).account = r.account := by
  unfold recoverStale
  repeat' split
  all_goals rfl

theorem recoverStale_toAddrs (now : Nat) (r : ScheduledEmail) :
    (recoverStale now r).toAddrs = r.toAddrs := by
  unfold recoverStale
  repeat' split
  all_goals rfl

theorem recoverStale_subject (now : Nat) (r : ScheduledEmail) :
    (recoverStale now r).subject = r.subject := by
  unfold recoverStale
  repeat' split
  all_goals rfl

theorem recoverStale_body (now : Nat) (r : ScheduledEmail) :
    (recoverStale now r).body = r.body := by
  unfold recoverStale
  repeat' split
  all_goals rfl

theorem recoverStale_cc (now : Nat) (r : ScheduledEmail) :
    (recoverStale now r).cc = r.cc := by
  unfold recoverStale
  repeat' split
  all_goals rfl

theorem recoverStale_bcc (now : Nat) (r : ScheduledEmail) :
    (recoverStale now r).bcc = r.bcc := by
  unfold recoverStale
  repeat' split
  all_goals rfl

theorem recoverStale_html (now : Nat) (r : ScheduledEmail) :
    (recoverStale now r).html = r.html := by
  unfold recoverStale
  repeat' split
  all_goals rfl

/-- C4: per iteration of `checkAndSend` on the record stored under its
id, attempts change by exactly 0 (no attempt reached) or exactly 1 (an
attempt, successful or not); a record is forced to `failed` exactly when
its attempts budget is exhausted (either already at the cap before the
attempt, or at the cap after the failed attempt); and a record forced to
`failed` always has `lastError` populated. -/
theorem attempts_discipline (send : Submission) (del : DeleteEmail)
    (now : Nat) (st : SweepState) (name : String) (r : ScheduledEmail)
    (hname : name = r.id ++ ".json")
    (hread : readFileD st.workDir name = some (.record r)) :
    (¬ attemptReached now r ∧ ¬ forcedFailLimit now r →
        processFile send del now st name = st)
    ∧ (forcedFailLimit now r →
        attemptsAt (processFile send del now st name).workDir name
            = some r.attempts
        ∧ statusAt (processFile send del now st name).workDir name
            = some Status.failed
        ∧ hasLastError (processFile send del now st name).workDir name
            = true)
    ∧ (attemptReached now r → ∀ res,
        send r.account (sendOptsOf r) = .ok res →
        attemptsAt (processFile send del now st name).sentDir name
            = some (r.attempts + 1)
        ∧ statusAt (processFile send del now st name).sentDir name
            = some Status.sent
        ∧ readFileD (processFile send del now st name).workDir name = none)
    ∧ (attemptReached now r → ∀ e,
        send r.account (sendOptsOf r) = .error e →
        attemptsAt (processFile send del now st name).workDir name
            = some (r.attempts + 1)
        ∧ statusAt (processFile send del now st name).workDir name
            = some (if MAX_ATTEMPTS ≤ r.attempts + 1 then Status.failed
                    else Status.pending)
        ∧ hasLastError (processFile send del now st name).workDir name
            = true) := by
  subst hname
  unfold processFile
  rw [hread]
  dsimp only [sendOptsOf]
  simp only [recoverStale_id, recoverStale_sendAt, recoverStale_attempts,
    recoverStale_account, recoverStale_toAddrs, recoverStale_subject,
    recoverStale_body, recoverStale_cc, recoverStale_bcc, recoverStale_html]
  by_cases h1 : (recoverStale now r).status = Status.sending
  · rw [if_pos h1]
    have hns : ¬ (recoverStale now r).status = Status.pending := by
      rw [h1]
      decide
    exact ⟨fun _ => rfl, fun hf => absurd hf.1 hns,
      fun ha _ _ => absurd ha.1 hns, fun ha _ _ => absurd ha.1 hns⟩
  · rw [if_neg h1]
    by_cases h2 : (recoverStale now r).status ≠ Status.pending
    · rw [if_pos h2]
      exact ⟨fun _ => rfl, fun hf => absurd hf.1 h2,
        fun ha _ _ => absurd ha.1 h2, fun ha _ _ => absurd ha.1 h2⟩
    · rw [if_neg h2]
      have hp : (recoverStale now r).status = Status.pending := not_not.mp h2
      by_cases h3 : now < r.sendAt
      · rw [if_pos h3]
        exact ⟨fun _ => rfl, fun hf => absurd hf.2.1 (by omega),
          fun ha _ _ => absurd ha.2.1 (by omega),
          fun ha _ _ => absurd ha.2.1 (by omega)⟩
      · rw [if_neg h3]
        by_cases h4 : MAX_ATTEMPTS ≤ r.attempts
        · rw [if_pos h4]
          refine ⟨?_, ?_, ?_, ?_⟩
          · intro hn
            exact absurd (⟨hp, by omega, h4⟩ : forcedFailLimit now r) hn.2
          · intro _
            refine ⟨?_, ?_, ?_⟩
            · unfold attemptsAt
              rw [readFileD_writeFileD_self]
            · unfold statusAt
              rw [readFileD_writeFileD_self]
            · unfold hasLastError
              rw [readFileD_writeFileD_self]
              rfl
          · intro ha _ _
            exact absurd ha.2.2 (by omega)
          · intro ha _ _
            exact absurd ha.2.2 (by omega)
        · rw [if_neg h4]
          refine ⟨?_, ?_, ?_, ?_⟩
          · intro hn
            exact absurd (⟨hp, by omega, by omega⟩ : attemptReached now r) hn.1
          · intro hf
            exact absurd hf.2.2 h4
          · intro _ res hsend
            rw [hsend]
            dsimp only
            refine ⟨?_, ?_, ?_⟩
            · unfold attemptsAt
              rw [readFileD_writeFileD_self]
            · unfold statusAt
              rw [readFileD_writeFileD_self]
            · exact readFileD_unlinkD_self _ _
          · intro _ e hsend
            rw [hsend]
            dsimp only
            rw [readFileD_writeFileD_self]
            dsimp only
            refine ⟨?_, ?_, ?_⟩
            · unfold attemptsAt
              rw [readFileD_writeFileD_self]
            · unfold statusAt
              rw [readFileD_writeFileD_self]
            · unfold hasLastError
              rw [readFileD_writeFileD_self]
              rfl

/-- Witness for `attempts_discipline`: an overdue pending record on its
second attempt against an always-throwing Submission capability. -/
theorem attempts_discipline_witness :
    ("j2.json" : String) = dueRec.id ++ ".json"
    ∧ readFileD dueState.workDir "j2.json" = some (.record dueRec)
    ∧ attemptReached 1000 dueRec
    ∧ failSend dueRec.account (sendOptsOf dueRec) = .error "smtp down"
    ∧ (attemptsAt (processFile failSend okDel 1000 dueState
          "j2.json").workDir "j2.json" = some (dueRec.attempts + 1)
       ∧ statusAt (processFile failSend okDel 1000 dueState
            "j2.json").workDir "j2.json"
          = some (if MAX_ATTEMPTS ≤ dueRec.attempts + 1 then Status.failed
                  else Status.pending)
       ∧ hasLastError (processFile failSend okDel 1000 dueState
            "j2.json").workDir "j2.json" = true) :=
  ⟨rfl, rfl, ⟨by decide, by decide, by decide⟩, rfl,
   (attempts_discipline failSend okDel 1000 dueState "j2.json" dueRec rfl
       rfl).2.2.2 ⟨by decide, by decide, by decide⟩ "smtp down" rfl⟩

/-- C7: with capacity `cap` and the 60000 ms window: `cap` consecutive
`tryConsume` calls on one key with zero elapsed time all return `true`
and the next one returns `false`; the refill step computes
`min(capacity, tokens + floor(elapsed * capacity / window))` and moves
the stored refill timestamp only when the computed refill is positive;
and after a full drain, elapsing `e ≤ window` milliseconds makes
`remaining` report `floor(e * cap / window)` tokens again. -/
theorem rate_limiter_bucket (cap now0 : Nat) (k : String) (e : Nat)
    (he : e ≤ 60000) :
    (∀ j, j < cap →
        ((consumeIter cap now0 k j).tryConsume now0 k).1 = true)
    ∧ ((consumeIter cap now0 k cap).tryConsume now0 k).1 = false
    ∧ (∀ (rl : RateLimiter) (now : Nat) (b : Bucket),
        rl.getBucket k = some b →
        (rl.tryConsume now k).1 = decide (0 < refillTokens rl now b)
        ∧ (rl.tryConsume now k).2.getBucket k
            = some { tokens := refillTokens rl now b - (if 0 < refillTokens rl now b then 1 else 0), lastRefill := refillStamp rl now b })
    ∧ ((consumeIter cap now0 k cap).remainingS (now0 + e) k).1
        = e * cap / 60000 := by
  refine ⟨?_, ?_, ?_, ?_⟩
  · intro j hj
    by_cases hj0 : j = 0
    · subst hj0
      rw [tryConsume_fresh (consumeIter cap now0 k 0) now0 k rfl]
      simp only [decide_eq_true_eq]
      show 0 < cap
      omega
    · have hb := (consumeIter_state cap now0 k j).2.2 hj0
      rw [tryConsume_same_instant _ _ _ _ hb]
      simp only [decide_eq_true_eq]
      omega
  · by_cases hc : cap = 0
    · subst hc
      rw [tryConsume_fresh (consumeIter 0 now0 k 0) now0 k rfl]
      rfl
    · have hb := (consumeIter_state cap now0 k cap).2.2 hc
      rw [tryConsume_same_instant _ _ _ _ hb]
      simp
  · intro rl now b hb
    unfold RateLimiter.tryConsume refillTokens refillStamp
    rw [hb]
    dsimp only
    by_cases hr : 0 < (now - b.lastRefill) * rl.maxTokens / rl.windowMs
    · simp only [if_pos hr]
      by_cases ht :
          0 < min rl.maxTokens
            (b.tokens + (now - b.lastRefill) * rl.maxTokens / rl.windowMs)
      · simp only [if_pos ht]
        exact ⟨by simp [ht], by rw [getBucket_setBucket]⟩
      · simp only [if_neg ht]
        refine ⟨by simp [ht], ?_⟩
        rw [getBucket_setBucket]
        simp
    · simp only [if_neg hr]
      by_cases ht : 0 < b.tokens
      · simp only [if_pos ht]
        exact ⟨by simp [ht], by rw [getBucket_setBucket]⟩
      · simp only [if_neg ht]
        refine ⟨by simp [ht], ?_⟩
        rw [getBucket_setBucket]
        simp
  · by_cases hc : cap = 0
    · subst hc
      show (RateLimiter.init 0).maxTokens = e * 0 / 60000
      simp [RateLimiter.init]
    · have hb := (consumeIter_state cap now0 k cap).2.2 hc
      have hmax := (consumeIter_state cap now0 k cap).1
      have hwin := (consumeIter_state cap now0 k cap).2.1
      unfold RateLimiter.remainingS
      rw [hb]
      dsimp only
      rw [hmax, hwin, Nat.sub_self, Nat.add_sub_cancel_left, Nat.zero_add]
      exact min_eq_right (Nat.div_le_of_le_mul (Nat.mul_le_mul_right cap he))

/-- Witness for `rate_limiter_bucket` at capacity 10, a full drain, and
6000 elapsed milliseconds (a tenth of the window): exactly one token is
reported again. -/
theorem rate_limiter_bucket_witness :
    (6000 : Nat) ≤ 60000
    ∧ (∀ j, j < 10 →
        ((consumeIter 10 0 "acct" j).tryConsume 0 "acct").1 = true)
    ∧ ((consumeIter 10 0 "acct" 10).tryConsume 0 "acct").1 = false
    ∧ ((consumeIter 10 0 "acct" 10).remainingS (0 + 6000) "acct").1 = 1 :=
  ⟨by decide, (rate_limiter_bucket 10 0 "acct" 6000 (by decide)).1,
   (rate_limiter_bucket 10 0 "acct" 6000 (by decide)).2.1,
   by rw [(rate_limiter_bucket 10 0 "acct" 6000 (by decide)).2.2.2]⟩

end EmailMcp
